import Mathlib

/-!
Shallow embedding of the terrain streaming subsystem of `vibe_golf`
(`src/plugins/terrain.rs`), together with theorems settling the spec's
claims about it.

Conventions of the embedding:
* `f32` values are modelled as `ℚ` (exact arithmetic; none of the claims
  concerns rounding behaviour of IEEE floats);
* `u32` is `ℕ` with explicit `% 2^32` where the source performs `as u32`
  casts and `u32` arithmetic that could wrap;
* `i32` is `ℤ` (the quantities involved — chunk coordinates, radii, pixel
  indices — are far from the `i32` range in every use the claims touch);
* `usize` is `ℕ`;
* Rust's indexing `data[i]` (which panics out of bounds) is modelled with
  `List.getD _ 0`; the safety claim shows the index is in bounds whenever
  the guard of `sample_red_linear` passes, so the default is never taken.
-/

/-- Red-channel raster heightmap (`Heightmap` in terrain.rs): width, height
and the red bytes in row-major order. -/
structure Heightmap where
  width : ℕ
  height : ℕ
  dataR : List ℕ
deriving DecidableEq

/-- Embeds `z as u32` for `z : i32`: wraps modulo `2^32`. -/
def toU32 (z : ℤ) : ℕ := (z % (2 ^ 32)).toNat

/-- The index closure in `sample_red_linear`:
`(z as u32 * self.width + x as u32) as usize`, with `u32` arithmetic
wrapping modulo `2^32` (the final `as usize` cast is exact). -/
def Heightmap.idx (hm : Heightmap) (x z : ℤ) : ℕ :=
  (toU32 z * hm.width + toU32 x) % 2 ^ 32

/-- Red byte at pixel `(x, z)` as a rational (the source reads
`self.data_r[idx(x, z)] as f32`). -/
def Heightmap.red (hm : Heightmap) (x z : ℤ) : ℚ :=
  (hm.dataR.getD (hm.idx x z) 0 : ℕ)

/-- Embeds `Heightmap::sample_red_linear`: bilinear fetch in pixel space with the
range guard and edge clamping of the neighbours, exactly as in the source.
`u, v` are pixel-space coordinates. -/
def Heightmap.sample_red_linear (hm : Heightmap) (u v : ℚ) : ℚ :=
  if u < 0 ∨ v < 0 ∨ u > ((hm.width : ℚ) - 1) ∨ v > ((hm.height : ℚ) - 1) then 0
  else
    let x0 : ℤ := u.floor
    let z0 : ℤ := v.floor
    let x1 : ℤ := max 0 (min (x0 + 1) ((hm.width : ℤ) - 1))
    let z1 : ℤ := max 0 (min (z0 + 1) ((hm.height : ℤ) - 1))
    let tx : ℚ := u - (x0 : ℚ)
    let tz : ℚ := v - (z0 : ℚ)
    let r00 := hm.red x0 z0
    let r10 := hm.red x1 z0
    let r01 := hm.red x0 z1
    let r11 := hm.red x1 z1
    let a := r00 + (r10 - r00) * tx
    let b := r01 + (r11 - r01) * tx
    (a + (b - a) * tz) / 255

/-- The fields of `TerrainConfig` that the terrain engine reads (the
struct's remaining fields are documented in the source as legacy/unused
and are read by no function modelled here). -/
structure TerrainConfig where
  amplitude : ℚ
  chunk_size : ℚ
  resolution : ℕ
  view_radius_chunks : ℤ
  max_spawn_per_frame : ℕ
  lod_mid_distance : ℚ
  lod_far_distance : ℚ
  lod_mid_resolution : ℕ
  lod_far_resolution : ℕ
  heightmap_world_size : ℚ
  heightmap_max_height : ℚ
  heightmap_path : String
deriving DecidableEq

/-- Embeds `TerrainConfig::default()` (the numeric literals of the source are
exact in `f32`, except `lod_mid_distance = 160.0 * 3.2` which we take at
its real value 512; no claim sits at that threshold). -/
def TerrainConfig.default : TerrainConfig where
  amplitude := 1
  chunk_size := 160
  resolution := 96
  view_radius_chunks := 6
  max_spawn_per_frame := 16
  lod_mid_distance := 512
  lod_far_distance := 800
  lod_mid_resolution := 48
  lod_far_resolution := 24
  heightmap_world_size := 2000
  heightmap_max_height := 200
  heightmap_path := "assets/heightmaps/level1.png"

/-- Embeds `TerrainSampler`: configuration plus the loaded heightmap. -/
structure TerrainSampler where
  cfg : TerrainConfig
  heightmap : Heightmap
deriving DecidableEq

/-- Embeds `TerrainSampler::sample_heightmap`: map world `(x, z)` into the unit
square over the declared extent, return 0 outside, otherwise sample the
raster bilinearly and scale. -/
def TerrainSampler.sample_heightmap (s : TerrainSampler) (x z : ℚ) : ℚ :=
  let world_size := s.cfg.heightmap_world_size
  let nx := x / world_size + 1/2
  let nz := z / world_size + 1/2
  if nx < 0 ∨ nx > 1 ∨ nz < 0 ∨ nz > 1 then 0
  else
    let u := nx * ((s.heightmap.width : ℚ) - 1)
    let v := nz * ((s.heightmap.height : ℚ) - 1)
    let h_norm := s.heightmap.sample_red_linear u v
    h_norm * s.cfg.heightmap_max_height * s.cfg.amplitude

/-- Embeds `TerrainSampler::height`. -/
def TerrainSampler.height (s : TerrainSampler) (x z : ℚ) : ℚ :=
  s.sample_heightmap x z

/-- The pixel-space coordinate a world coordinate maps to
(`u = nx * (width - 1)` in `sample_heightmap`). -/
def pixelCoord (world_size : ℚ) (extent : ℕ) (x : ℚ) : ℚ :=
  (x / world_size + 1/2) * ((extent : ℚ) - 1)

/-- Written from the spec's words, independently of the source's
lerp-of-lerps: the bilinear interpolation of the 4 enclosing raster
samples (neighbours clamped to the last row/column at the edge), in
weight form `(1-tx)(1-tz)·p00 + tx(1-tz)·p10 + (1-tx)tz·p01 + tx·tz·p11`,
normalized by 255.  Pixels are read row-major at `z * width + x`. -/
def specBilinear (hm : Heightmap) (u v : ℚ) : ℚ :=
  let x0 : ℤ := u.floor
  let z0 : ℤ := v.floor
  let x1 : ℤ := min (x0 + 1) ((hm.width : ℤ) - 1)
  let z1 : ℤ := min (z0 + 1) ((hm.height : ℤ) - 1)
  let tx : ℚ := u - (x0 : ℚ)
  let tz : ℚ := v - (z0 : ℚ)
  let p : ℤ → ℤ → ℚ := fun x z => (hm.dataR.getD (z.toNat * hm.width + x.toNat) 0 : ℕ)
  ((1 - tx) * (1 - tz) * p x0 z0 + tx * (1 - tz) * p x1 z0 +
    (1 - tx) * tz * p x0 z1 + tx * tz * p x1 z1) / 255

/-! ## Streaming manager, finalizer, eviction (`update_terrain_chunks`,
`finalize_chunk_tasks`, `apply_terrain_config_changes`) -/

/-- Observer world position (`Transform::translation` of the `Ball`). -/
structure Vec3Q where
  x : ℚ
  y : ℚ
  z : ℚ
deriving DecidableEq

/-- A chunk coordinate (`IVec2`; `.1` is `x`, `.2` is the `y` field, which
the code uses as the z-chunk index). -/
abbrev ChunkCoord := ℤ × ℤ

/-- The two registries: the key set of `LoadedChunks.map` and the set
`InProgressChunks.set` (entity ids carry no information the claims need,
so only the coordinate keys are modelled). -/
structure ChunkState where
  loaded : Finset ChunkCoord
  inProgress : Finset ChunkCoord
deriving DecidableEq

/-- Embeds `center_pos`: `q_ball.get_single().map(|t| t.translation).unwrap_or(Vec3::ZERO)`. -/
def observerCenterPos (ballPos : Option Vec3Q) : Vec3Q :=
  ballPos.getD ⟨0, 0, 0⟩

/-- Embeds `center_chunk`: componentwise `floor(pos / chunk_size)` of the x and z
components. -/
def centerChunkOf (cfg : TerrainConfig) (pos : Vec3Q) : ChunkCoord :=
  ((pos.x / cfg.chunk_size).floor, (pos.z / cfg.chunk_size).floor)

/-- The inclusive integer range `lo..=hi` as a list (empty when `hi < lo`,
as in Rust). -/
def rangeIncl (lo hi : ℤ) : List ℤ :=
  (List.range (hi + 1 - lo).toNat).map fun i => lo + (i : ℤ)

/-- The `desired` vector: the two nested `for dz / for dx` loops of
`update_terrain_chunks`, pushing `(center.x + dx, center.y + dz)`. -/
def desiredCoords (center : ChunkCoord) (radius : ℤ) : List ChunkCoord :=
  (rangeIncl (-radius) radius).flatMap fun dz =>
    (rangeIncl (-radius) radius).map fun dx => (center.1 + dx, center.2 + dz)

/-- The sort key `dx * dx + dz * dz` of the `sort_by_key` call. -/
def chunkSortKey (center : ChunkCoord) (c : ChunkCoord) : ℤ :=
  (c.1 - center.1) * (c.1 - center.1) + (c.2 - center.2) * (c.2 - center.2)

/-- Stable insertion of one element into a key-sorted list of the elements
that follow it in the original order: the element goes in front of the
first entry whose key is not smaller, so elements with equal keys keep
their original relative order. -/
def insertByKey (key : ChunkCoord → ℤ) (c : ChunkCoord) : List ChunkCoord → List ChunkCoord
  | [] => [c]
  | d :: ds => if key d < key c then d :: insertByKey key c ds else c :: d :: ds

/-- Rust's `sort_by_key` is a stable sort; all stable sorts by the same key
produce the same list, so it is embedded as stable insertion sort. -/
def sortByKey (key : ChunkCoord → ℤ) : List ChunkCoord → List ChunkCoord
  | [] => []
  | c :: cs => insertByKey key c (sortByKey key cs)

/-- The submission loop of `update_terrain_chunks`: walk the sorted
candidates; skip a coordinate already Loaded or Pending; stop at the first
fresh coordinate once `spawned_this_frame >= max_spawn_per_frame`;
otherwise submit it (collect it and insert it into `in_progress`) and
count it.  Returns the submitted coordinates in order and the updated
`in_progress` set. -/
def submitLoop (loaded : Finset ChunkCoord) (budget : ℕ) :
    List ChunkCoord → Finset ChunkCoord → ℕ → List ChunkCoord × Finset ChunkCoord
  | [], inProgress, _ => ([], inProgress)
  | c :: rest, inProgress, spawned =>
    if c ∈ loaded ∨ c ∈ inProgress then
      submitLoop loaded budget rest inProgress spawned
    else if budget ≤ spawned then
      ([], inProgress)
    else
      let r := submitLoop loaded budget rest (insert c inProgress) (spawned + 1)
      (c :: r.1, r.2)

/-- The eviction pass: every loaded coordinate with
`|coord.x - center.x| > radius || |coord.y - center.y| > radius` is
despawned and removed from `LoadedChunks` (collect-then-remove in the
source equals one filter keeping the in-range coordinates). -/
def evictPass (loaded : Finset ChunkCoord) (center : ChunkCoord) (radius : ℤ) :
    Finset ChunkCoord :=
  loaded.filter fun c => ¬(|c.1 - center.1| > radius ∨ |c.2 - center.2| > radius)

/-- Embeds `update_terrain_chunks` (non-wasm path), restricted to its effect on
the registries: compute the observer chunk, build and sort the desired
list, run the bounded submission loop, then the eviction pass.  Returns
the new registry state and the submitted coordinates in order. -/
def updateTerrainChunks (cfg : TerrainConfig) (s : ChunkState) (ballPos : Option Vec3Q) :
    ChunkState × List ChunkCoord :=
  let centerPos := observerCenterPos ballPos
  let centerChunk := centerChunkOf cfg centerPos
  let desired := desiredCoords centerChunk cfg.view_radius_chunks
  let sorted := sortByKey (chunkSortKey centerChunk) desired
  let r := submitLoop s.loaded cfg.max_spawn_per_frame sorted s.inProgress 0
  let loaded' := evictPass s.loaded centerChunk cfg.view_radius_chunks
  (⟨loaded', r.2⟩, r.1)

/-- Embeds `finalize_chunk_tasks`, restricted to the registries: each completed
build inserts its coordinate into `LoadedChunks` and removes it from
`InProgressChunks`. -/
def finalizeChunkTasks (s : ChunkState) (completed : List ChunkCoord) : ChunkState :=
  completed.foldl (fun st c => ⟨insert c st.loaded, st.inProgress.erase c⟩) s

/-- One control cycle as scheduled by `TerrainPlugin::build` (non-wasm):
`update_terrain_chunks` then `finalize_chunk_tasks`, where `completed` is
the set of build tasks that finished by the time the finalizer polled. -/
def controlCycle (cfg : TerrainConfig) (s : ChunkState) (ballPos : Option Vec3Q)
    (completed : List ChunkCoord) : ChunkState :=
  finalizeChunkTasks (updateTerrainChunks cfg s ballPos).1 completed

/-! ## LOD selection -/

/-- The chunk world center `Vec3::new(x*size + size/2, 0, y*size + size/2)`. -/
def chunkWorldCenter (cfg : TerrainConfig) (coord : ChunkCoord) : Vec3Q :=
  ⟨(coord.1 : ℚ) * cfg.chunk_size + cfg.chunk_size * (1/2), 0,
    (coord.2 : ℚ) * cfg.chunk_size + cfg.chunk_size * (1/2)⟩

/-- The comparison `√s > t` expressed without square roots, for `s` the square of a
nonnegative distance: true when `t < 0`, otherwise `s > t²`. -/
def sqrtGT (s t : ℚ) : Prop := t < 0 ∨ s > t ^ 2

instance (s t : ℚ) : Decidable (sqrtGT s t) := by unfold sqrtGT; infer_instance

/-- The LOD selector of `update_terrain_chunks` as a function of the
distance value it compares against the thresholds:
`far_res if dist > far; else mid_res if dist > mid; else resolution`. -/
def lodResolution (cfg : TerrainConfig) (dist : ℚ) : ℕ :=
  if dist > cfg.lod_far_distance then cfg.lod_far_resolution
  else if dist > cfg.lod_mid_distance then cfg.lod_mid_resolution
  else cfg.resolution

/-- The same selector applied to a squared distance (the embedding stays in
`ℚ`, where the Euclidean distance itself may be irrational; `dist > thr`
is `sqrtGT distSq thr` since `dist ≥ 0`). -/
def lodResolutionOfSq (cfg : TerrainConfig) (distSq : ℚ) : ℕ :=
  if sqrtGT distSq cfg.lod_far_distance then cfg.lod_far_resolution
  else if sqrtGT distSq cfg.lod_mid_distance then cfg.lod_mid_resolution
  else cfg.resolution

/-- The squared value of the distance the source actually feeds the
selector: `chunk_world_center.xy().distance(center_pos.xy())`, i.e. the
planar distance of the **x,y** components (the chunk center's y is 0 and
its z component is dropped). -/
def codeLodDistSq (cfg : TerrainConfig) (coord : ChunkCoord) (pos : Vec3Q) : ℚ :=
  let c := chunkWorldCenter cfg coord
  (c.x - pos.x) ^ 2 + (c.y - pos.y) ^ 2

/-- Squared Euclidean distance between two points of world space. -/
def dist3Sq (a b : Vec3Q) : ℚ :=
  (a.x - b.x) ^ 2 + (a.y - b.y) ^ 2 + (a.z - b.z) ^ 2

/-- Embeds `create_collider = (chosen_res != cfg.lod_far_resolution)`. -/
def createCollider (cfg : TerrainConfig) (chosenRes : ℕ) : Bool :=
  chosenRes ≠ cfg.lod_far_resolution

/-! ## Config-change handling (`apply_terrain_config_changes`) -/

/-- World state the config-change handler touches: the registries plus the
sampler's configuration snapshot. -/
structure TerrainWorld where
  loaded : Finset ChunkCoord
  inProgress : Finset ChunkCoord
  samplerCfg : TerrainConfig
deriving DecidableEq

/-- The condition of `apply_terrain_config_changes` (given the resource
was marked changed): any of the five compared fields differs between the
new config and the sampler's snapshot. -/
def configFundamentallyChanged (cfg samplerCfg : TerrainConfig) : Prop :=
  cfg.amplitude ≠ samplerCfg.amplitude ∨
  cfg.view_radius_chunks ≠ samplerCfg.view_radius_chunks ∨
  cfg.heightmap_world_size ≠ samplerCfg.heightmap_world_size ∨
  cfg.heightmap_path ≠ samplerCfg.heightmap_path ∨
  cfg.heightmap_max_height ≠ samplerCfg.heightmap_max_height

instance (cfg samplerCfg : TerrainConfig) :
    Decidable (configFundamentallyChanged cfg samplerCfg) := by
  unfold configFundamentallyChanged; infer_instance

/-! ## Concrete instances used by witnesses and counterexamples -/

/-- Concrete 2×2 heightmap used by the witnesses. -/
def hmW : Heightmap := ⟨2, 2, [10, 20, 30, 40]⟩

/-- Concrete sampler over `hmW` with a 2-meter world extent. -/
def samplerW : TerrainSampler :=
  ⟨{ TerrainConfig.default with heightmap_world_size := 2 }, hmW⟩

/-- Default config with view radius 2 and a zero spawn budget. -/
def cfgR2 : TerrainConfig :=
  { TerrainConfig.default with view_radius_chunks := 2, max_spawn_per_frame := 0 }

/-- Default config with view radius 0. -/
def cfgR0 : TerrainConfig :=
  { TerrainConfig.default with view_radius_chunks := 0 }

/-- The spec's streaming scenario: `chunk_size = 160`, `resolution = 96`,
`view_radius = 2`, `max_spawn_per_frame = 16` (all but the radius are the
defaults). -/
def cfgScenario : TerrainConfig :=
  { TerrainConfig.default with view_radius_chunks := 2 }

/-- Body of `apply_terrain_config_changes`: when the fundamental fields
changed, despawn every loaded chunk entity (drop the `loaded` keys), and
replace the sampler with one rebuilt from the new config.  The function
receives neither `InProgressChunks` nor a way to touch it. -/
def applyTerrainConfigChanges (cfg : TerrainConfig) (w : TerrainWorld) : TerrainWorld :=
  if configFundamentallyChanged cfg w.samplerCfg then
    ⟨∅, w.inProgress, cfg⟩
  else
    w

/-- The per-candidate LOD decision of `update_terrain_chunks`: the chosen
resolution (from the squared value of the distance the code computes) and
the collider flag `chosen_res != cfg.lod_far_resolution`. -/
def submissionDecision (cfg : TerrainConfig) (coord : ChunkCoord) (pos : Vec3Q) : ℕ × Bool :=
  (lodResolutionOfSq cfg (codeLodDistSq cfg coord pos),
    createCollider cfg (lodResolutionOfSq cfg (codeLodDistSq cfg coord pos)))

/-- Default config with amplitude changed to 2 (a fundamental change). -/
def cfgAmp2 : TerrainConfig :=
  { TerrainConfig.default with amplitude := 2 }

/-! ## Helper lemmas -/

/-- The function `Rat.floor` (the computable floor the definitions use) agrees with the
`Int.floor` of the order structure. -/
theorem ratFloor_eq_intFloor (q : ℚ) : q.floor = ⌊q⌋ := by
  rw [Rat.floor_def', Rat.floor_def]

/-- A pixel coordinate in `[0, n-1]` has its floor in `{0, …, n-1}`. -/
theorem floor_range {u : ℚ} {n : ℕ} (h0 : 0 ≤ u)
    (hu : u ≤ (n : ℚ) - 1) : 0 ≤ u.floor ∧ u.floor ≤ (n : ℤ) - 1 := by
  rw [ratFloor_eq_intFloor]
  refine ⟨Int.floor_nonneg.mpr h0, ?_⟩
  have h : u ≤ (((n : ℤ) - 1 : ℤ) : ℚ) := by push_cast; linarith
  simpa using Int.floor_le_floor h

/-- For in-range pixel coordinates the `u32` index arithmetic of
`sample_red_linear` does not wrap, and the resulting index is strictly
inside a buffer of `width * height` bytes. -/
theorem idx_eq_and_lt (hm : Heightmap) (hW : 1 ≤ hm.width) (hH : 1 ≤ hm.height)
    (hWH : hm.width * hm.height ≤ 2 ^ 32) {x z : ℤ}
    (hx0 : 0 ≤ x) (hx1 : x ≤ (hm.width : ℤ) - 1)
    (hz0 : 0 ≤ z) (hz1 : z ≤ (hm.height : ℤ) - 1) :
    hm.idx x z = z.toNat * hm.width + x.toNat ∧
      z.toNat * hm.width + x.toNat < hm.width * hm.height := by
  have hxN : x.toNat ≤ hm.width - 1 := by omega
  have hzN : z.toNat ≤ hm.height - 1 := by omega
  have hlt : z.toNat * hm.width + x.toNat < hm.width * hm.height := by
    have hxw : x.toNat < hm.width := by omega
    have hzw : z.toNat + 1 ≤ hm.height := by omega
    have h1 : (z.toNat + 1) * hm.width ≤ hm.height * hm.width :=
      Nat.mul_le_mul_right _ hzw
    have h2 : (z.toNat + 1) * hm.width = z.toNat * hm.width + hm.width :=
      Nat.succ_mul _ _
    have h3 : hm.height * hm.width = hm.width * hm.height := Nat.mul_comm _ _
    linarith
  refine ⟨?_, hlt⟩
  have hxlt : x.toNat < 2 ^ 32 := by
    have hWle : hm.width ≤ hm.width * hm.height := Nat.le_mul_of_pos_right _ (by omega)
    omega
  have hzlt : z.toNat < 2 ^ 32 := by
    have hHle : hm.height ≤ hm.width * hm.height := Nat.le_mul_of_pos_left _ (by omega)
    omega
  have hxm : toU32 x = x.toNat := by
    unfold toU32
    rw [Int.emod_eq_of_lt hx0 (by omega)]
  have hzm : toU32 z = z.toNat := by
    unfold toU32
    rw [Int.emod_eq_of_lt hz0 (by omega)]
  unfold Heightmap.idx
  rw [hxm, hzm, Nat.mod_eq_of_lt (lt_of_lt_of_le hlt hWH)]

/-- Inside the pixel-space range guard, the lerp-of-lerps of
`sample_red_linear` equals the weight-form bilinear interpolation of the 4
enclosing samples written from the spec. -/
theorem sample_red_linear_eq_spec (hm : Heightmap)
    (hW : 1 ≤ hm.width) (hH : 1 ≤ hm.height)
    (hWH : hm.width * hm.height ≤ 2 ^ 32) {u v : ℚ}
    (hu0 : 0 ≤ u) (hu1 : u ≤ (hm.width : ℚ) - 1)
    (hv0 : 0 ≤ v) (hv1 : v ≤ (hm.height : ℚ) - 1) :
    hm.sample_red_linear u v = specBilinear hm u v := by
  have hguard : ¬(u < 0 ∨ v < 0 ∨ u > ((hm.width : ℚ) - 1) ∨
      v > ((hm.height : ℚ) - 1)) := by
    push_neg
    exact ⟨hu0, hv0, hu1, hv1⟩
  obtain ⟨hx0, hx1⟩ := floor_range hu0 hu1
  obtain ⟨hz0, hz1⟩ := floor_range hv0 hv1
  have hxc : max 0 (min (u.floor + 1) ((hm.width : ℤ) - 1)) =
      min (u.floor + 1) ((hm.width : ℤ) - 1) := by omega
  have hzc : max 0 (min (v.floor + 1) ((hm.height : ℤ) - 1)) =
      min (v.floor + 1) ((hm.height : ℤ) - 1) := by omega
  have hx1' : min (u.floor + 1) ((hm.width : ℤ) - 1) ≤ (hm.width : ℤ) - 1 :=
    min_le_right _ _
  have hx0' : 0 ≤ min (u.floor + 1) ((hm.width : ℤ) - 1) := by omega
  have hz1' : min (v.floor + 1) ((hm.height : ℤ) - 1) ≤ (hm.height : ℤ) - 1 :=
    min_le_right _ _
  have hz0' : 0 ≤ min (v.floor + 1) ((hm.height : ℤ) - 1) := by omega
  simp only [Heightmap.sample_red_linear, specBilinear]
  rw [if_neg hguard, hxc, hzc]
  simp only [Heightmap.red]
  rw [(idx_eq_and_lt hm hW hH hWH hx0 hx1 hz0 hz1).1,
    (idx_eq_and_lt hm hW hH hWH hx0' hx1' hz0 hz1).1,
    (idx_eq_and_lt hm hW hH hWH hx0 hx1 hz0' hz1').1,
    (idx_eq_and_lt hm hW hH hWH hx0' hx1' hz0' hz1').1]
  ring

/-! ## C1: height is clamped bilinear interpolation inside the extent, 0 outside -/

/-- C1.  For every world `(x, z)` inside the heightmap extent (the square
of side `heightmap_world_size` centered at the origin), `height(x, z)`
equals the bilinear interpolation of the 4 enclosing raster red-channel
samples, normalized by 255 (inside `specBilinear`), scaled by
`heightmap_max_height * amplitude`; for every `(x, z)` strictly outside
the extent the height is exactly 0. -/
theorem terrain_height_bilinear_spec (s : TerrainSampler)
    (hW : 1 ≤ s.heightmap.width) (hH : 1 ≤ s.heightmap.height)
    (hWH : s.heightmap.width * s.heightmap.height ≤ 2 ^ 32)
    (hws : 0 < s.cfg.heightmap_world_size) :
    (∀ x z : ℚ,
      -(s.cfg.heightmap_world_size / 2) ≤ x → x ≤ s.cfg.heightmap_world_size / 2 →
      -(s.cfg.heightmap_world_size / 2) ≤ z → z ≤ s.cfg.heightmap_world_size / 2 →
      s.height x z =
        specBilinear s.heightmap
            (pixelCoord s.cfg.heightmap_world_size s.heightmap.width x)
            (pixelCoord s.cfg.heightmap_world_size s.heightmap.height z) *
          s.cfg.heightmap_max_height * s.cfg.amplitude) ∧
    (∀ x z : ℚ,
      (x < -(s.cfg.heightmap_world_size / 2) ∨ s.cfg.heightmap_world_size / 2 < x ∨
        z < -(s.cfg.heightmap_world_size / 2) ∨ s.cfg.heightmap_world_size / 2 < z) →
      s.height x z = 0) := by
  constructor
  · intro x z hx1 hx2 hz1 hz2
    have hW1 : (1 : ℚ) ≤ (s.heightmap.width : ℚ) := by exact_mod_cast hW
    have hH1 : (1 : ℚ) ≤ (s.heightmap.height : ℚ) := by exact_mod_cast hH
    have hxd1 : -(1/2 : ℚ) ≤ x / s.cfg.heightmap_world_size :=
      (le_div_iff₀ hws).mpr (by linarith)
    have hxd2 : x / s.cfg.heightmap_world_size ≤ 1/2 :=
      (div_le_iff₀ hws).mpr (by linarith)
    have hzd1 : -(1/2 : ℚ) ≤ z / s.cfg.heightmap_world_size :=
      (le_div_iff₀ hws).mpr (by linarith)
    have hzd2 : z / s.cfg.heightmap_world_size ≤ 1/2 :=
      (div_le_iff₀ hws).mpr (by linarith)
    have hguard : ¬(x / s.cfg.heightmap_world_size + 1/2 < 0 ∨
        x / s.cfg.heightmap_world_size + 1/2 > 1 ∨
        z / s.cfg.heightmap_world_size + 1/2 < 0 ∨
        z / s.cfg.heightmap_world_size + 1/2 > 1) := by
      push_neg
      refine ⟨by linarith, by linarith, by linarith, by linarith⟩
    simp only [TerrainSampler.height, TerrainSampler.sample_heightmap]
    rw [if_neg hguard]
    have hu0 : 0 ≤ (x / s.cfg.heightmap_world_size + 1/2) *
        ((s.heightmap.width : ℚ) - 1) :=
      mul_nonneg (by linarith) (by linarith)
    have hu1 : (x / s.cfg.heightmap_world_size + 1/2) *
        ((s.heightmap.width : ℚ) - 1) ≤ (s.heightmap.width : ℚ) - 1 :=
      mul_le_of_le_one_left (by linarith) (by linarith)
    have hv0 : 0 ≤ (z / s.cfg.heightmap_world_size + 1/2) *
        ((s.heightmap.height : ℚ) - 1) :=
      mul_nonneg (by linarith) (by linarith)
    have hv1 : (z / s.cfg.heightmap_world_size + 1/2) *
        ((s.heightmap.height : ℚ) - 1) ≤ (s.heightmap.height : ℚ) - 1 :=
      mul_le_of_le_one_left (by linarith) (by linarith)
    rw [sample_red_linear_eq_spec s.heightmap hW hH hWH hu0 hu1 hv0 hv1]
    simp only [pixelCoord]
  · intro x z hcase
    simp only [TerrainSampler.height, TerrainSampler.sample_heightmap]
    rcases hcase with h | h | h | h
    · have hnx : x / s.cfg.heightmap_world_size + 1/2 < 0 := by
        have := (div_lt_iff₀ hws).mpr (show x < -(1/2) * s.cfg.heightmap_world_size by
          linarith)
        linarith
      rw [if_pos (Or.inl hnx)]
    · have hnx : x / s.cfg.heightmap_world_size + 1/2 > 1 := by
        have := (lt_div_iff₀ hws).mpr (show (1/2) * s.cfg.heightmap_world_size < x by
          linarith)
        linarith
      rw [if_pos (Or.inr (Or.inl hnx))]
    · have hnz : z / s.cfg.heightmap_world_size + 1/2 < 0 := by
        have := (div_lt_iff₀ hws).mpr (show z < -(1/2) * s.cfg.heightmap_world_size by
          linarith)
        linarith
      rw [if_pos (Or.inr (Or.inr (Or.inl hnz)))]
    · have hnz : z / s.cfg.heightmap_world_size + 1/2 > 1 := by
        have := (lt_div_iff₀ hws).mpr (show (1/2) * s.cfg.heightmap_world_size < z by
          linarith)
        linarith
      rw [if_pos (Or.inr (Or.inr (Or.inr hnz)))]

/-- Witness for C1: at `(x, z) = (1/2, 0)` inside the 2-meter extent the
height is the bilinear blend of the four bytes, `1100/51` exactly. -/
theorem terrain_height_bilinear_spec_witness :
    samplerW.height (1/2) 0 =
      specBilinear samplerW.heightmap
          (pixelCoord samplerW.cfg.heightmap_world_size samplerW.heightmap.width (1/2))
          (pixelCoord samplerW.cfg.heightmap_world_size samplerW.heightmap.height 0) *
        samplerW.cfg.heightmap_max_height * samplerW.cfg.amplitude ∧
    samplerW.height (1/2) 0 = 1100 / 51 := by
  constructor
  · exact (terrain_height_bilinear_spec samplerW
      (by norm_num [samplerW, hmW]) (by norm_num [samplerW, hmW])
      (by norm_num [samplerW, hmW])
      (by norm_num [samplerW, TerrainConfig.default])).1 (1/2) 0
      (by norm_num [samplerW, TerrainConfig.default])
      (by norm_num [samplerW, TerrainConfig.default])
      (by norm_num [samplerW, TerrainConfig.default])
      (by norm_num [samplerW, TerrainConfig.default])
  · norm_num [samplerW, hmW, TerrainConfig.default, TerrainSampler.height,
      TerrainSampler.sample_heightmap, Heightmap.sample_red_linear,
      Heightmap.red, Heightmap.idx, toU32, ratFloor_eq_intFloor,
      List.getD]

/-! ## C9: bilinear sampler indexing is in bounds -/

/-- C9.  For every `(u, v)` passing the range guard
`0 ≤ u ≤ width-1`, `0 ≤ v ≤ height-1`, the four pixel indices computed by
`sample_red_linear` (the floor cell and its clamped neighbours) lie
strictly inside a red-channel buffer of `width * height` elements, and at
the last pixel column/row the neighbour coordinate is clamped to the edge
pixel. -/
theorem sample_indices_in_bounds (hm : Heightmap)
    (hW : 1 ≤ hm.width) (hH : 1 ≤ hm.height)
    (hWH : hm.width * hm.height ≤ 2 ^ 32)
    (u v : ℚ) (hu0 : 0 ≤ u) (hu1 : u ≤ (hm.width : ℚ) - 1)
    (hv0 : 0 ≤ v) (hv1 : v ≤ (hm.height : ℚ) - 1) :
    (hm.idx u.floor v.floor < hm.width * hm.height ∧
      hm.idx (max 0 (min (u.floor + 1) ((hm.width : ℤ) - 1))) v.floor <
        hm.width * hm.height ∧
      hm.idx u.floor (max 0 (min (v.floor + 1) ((hm.height : ℤ) - 1))) <
        hm.width * hm.height ∧
      hm.idx (max 0 (min (u.floor + 1) ((hm.width : ℤ) - 1)))
          (max 0 (min (v.floor + 1) ((hm.height : ℤ) - 1))) <
        hm.width * hm.height) ∧
    (u.floor = (hm.width : ℤ) - 1 →
      max 0 (min (u.floor + 1) ((hm.width : ℤ) - 1)) = (hm.width : ℤ) - 1) ∧
    (v.floor = (hm.height : ℤ) - 1 →
      max 0 (min (v.floor + 1) ((hm.height : ℤ) - 1)) = (hm.height : ℤ) - 1) := by
  obtain ⟨hx0, hx1⟩ := floor_range hu0 hu1
  obtain ⟨hz0, hz1⟩ := floor_range hv0 hv1
  have hx0' : 0 ≤ max 0 (min (u.floor + 1) ((hm.width : ℤ) - 1)) := le_max_left _ _
  have hx1' : max 0 (min (u.floor + 1) ((hm.width : ℤ) - 1)) ≤ (hm.width : ℤ) - 1 := by
    omega
  have hz0' : 0 ≤ max 0 (min (v.floor + 1) ((hm.height : ℤ) - 1)) := le_max_left _ _
  have hz1' : max 0 (min (v.floor + 1) ((hm.height : ℤ) - 1)) ≤ (hm.height : ℤ) - 1 := by
    omega
  refine ⟨⟨?_, ?_, ?_, ?_⟩, by omega, by omega⟩
  · rw [(idx_eq_and_lt hm hW hH hWH hx0 hx1 hz0 hz1).1]
    exact (idx_eq_and_lt hm hW hH hWH hx0 hx1 hz0 hz1).2
  · rw [(idx_eq_and_lt hm hW hH hWH hx0' hx1' hz0 hz1).1]
    exact (idx_eq_and_lt hm hW hH hWH hx0' hx1' hz0 hz1).2
  · rw [(idx_eq_and_lt hm hW hH hWH hx0 hx1 hz0' hz1').1]
    exact (idx_eq_and_lt hm hW hH hWH hx0 hx1 hz0' hz1').2
  · rw [(idx_eq_and_lt hm hW hH hWH hx0' hx1' hz0' hz1').1]
    exact (idx_eq_and_lt hm hW hH hWH hx0' hx1' hz0' hz1').2

/-- Witness for C9 at the last pixel column (`u = 1` on a width-2 raster):
the neighbour clamps to the edge and all indices stay below
`width * height = 4`. -/
theorem sample_indices_in_bounds_witness :
    (1 ≤ hmW.width ∧ (0 : ℚ) ≤ 1 ∧ (1 : ℚ) ≤ (hmW.width : ℚ) - 1) ∧
    ((hmW.idx (1 : ℚ).floor (1/2 : ℚ).floor < hmW.width * hmW.height ∧
      hmW.idx (max 0 (min ((1 : ℚ).floor + 1) ((hmW.width : ℤ) - 1))) (1/2 : ℚ).floor <
        hmW.width * hmW.height ∧
      hmW.idx (1 : ℚ).floor
          (max 0 (min ((1/2 : ℚ).floor + 1) ((hmW.height : ℤ) - 1))) <
        hmW.width * hmW.height ∧
      hmW.idx (max 0 (min ((1 : ℚ).floor + 1) ((hmW.width : ℤ) - 1)))
          (max 0 (min ((1/2 : ℚ).floor + 1) ((hmW.height : ℤ) - 1))) <
        hmW.width * hmW.height) ∧
    ((1 : ℚ).floor = (hmW.width : ℤ) - 1 →
      max 0 (min ((1 : ℚ).floor + 1) ((hmW.width : ℤ) - 1)) = (hmW.width : ℤ) - 1) ∧
    ((1/2 : ℚ).floor = (hmW.height : ℤ) - 1 →
      max 0 (min ((1/2 : ℚ).floor + 1) ((hmW.height : ℤ) - 1)) = (hmW.height : ℤ) - 1)) :=
  ⟨⟨by norm_num [hmW], by norm_num, by norm_num [hmW]⟩,
    sample_indices_in_bounds hmW (by norm_num [hmW]) (by norm_num [hmW])
      (by norm_num [hmW]) 1 (1/2) (by norm_num) (by norm_num [hmW])
      (by norm_num) (by norm_num [hmW])⟩

/-! ## Streaming helper lemmas -/

/-- The submission loop only ever inserts coordinates that are not Loaded,
so it keeps `loaded` disjoint from `inProgress`. -/
theorem submitLoop_disjoint (b : ℕ) (ld : Finset ChunkCoord) :
    ∀ (l : List ChunkCoord) (ip : Finset ChunkCoord) (n : ℕ),
      Disjoint ld ip → Disjoint ld (submitLoop ld b l ip n).2
  | [], _, _, h => h
  | c :: rest, ip, n, h => by
    unfold submitLoop
    split
    · exact submitLoop_disjoint b ld rest ip n h
    · split
      · exact h
      · rename_i hnot _
        exact submitLoop_disjoint b ld rest (insert c ip) (n + 1)
          (Finset.disjoint_insert_right.mpr ⟨fun hc => hnot (Or.inl hc), h⟩)

/-- The finalizer moves coordinates from `inProgress` into `loaded`, one at
a time, so it keeps the registries disjoint. -/
theorem finalize_disjoint :
    ∀ (completed : List ChunkCoord) (s : ChunkState),
      Disjoint s.loaded s.inProgress →
      Disjoint (finalizeChunkTasks s completed).loaded
        (finalizeChunkTasks s completed).inProgress
  | [], _, h => h
  | c :: rest, s, h =>
    finalize_disjoint rest ⟨insert c s.loaded, s.inProgress.erase c⟩
      (Finset.disjoint_insert_left.mpr
        ⟨Finset.not_mem_erase c _, h.mono_right (Finset.erase_subset _ _)⟩)

/-- If every candidate is already Loaded or Pending, the submission loop
submits nothing and leaves `inProgress` unchanged. -/
theorem submitLoop_settled (b : ℕ) (ld : Finset ChunkCoord) :
    ∀ (l : List ChunkCoord) (ip : Finset ChunkCoord) (n : ℕ),
      (∀ c ∈ l, c ∈ ld ∨ c ∈ ip) → submitLoop ld b l ip n = ([], ip)
  | [], _, _, _ => rfl
  | c :: rest, ip, n, h => by
    unfold submitLoop
    rw [if_pos (h c (List.mem_cons_self c rest))]
    exact submitLoop_settled b ld rest ip n fun d hd => h d (List.mem_cons_of_mem c hd)

/-- Membership in a stable insertion. -/
theorem mem_insertByKey (key : ChunkCoord → ℤ) (c a : ChunkCoord) :
    ∀ l : List ChunkCoord, a ∈ insertByKey key c l ↔ a = c ∨ a ∈ l
  | [] => by simp [insertByKey]
  | d :: ds => by
    unfold insertByKey
    split
    · rw [List.mem_cons, mem_insertByKey key c a ds, List.mem_cons]
      tauto
    · simp only [List.mem_cons]

/-- Sorting does not change membership. -/
theorem mem_sortByKey (key : ChunkCoord → ℤ) (a : ChunkCoord) :
    ∀ l : List ChunkCoord, a ∈ sortByKey key l ↔ a ∈ l
  | [] => Iff.rfl
  | c :: cs => by
    unfold sortByKey
    rw [mem_insertByKey, mem_sortByKey key a cs, List.mem_cons]

/-! ## C3: the registries stay disjoint across a control cycle -/

/-- C3.  If `LoadedChunks ∩ InProgress = ∅` at the start of a control
cycle, the same holds after the submission pass and the eviction pass of
`update_terrain_chunks`, and again after `finalize_chunk_tasks` moved the
completed coordinates — so every coordinate is in at most one of the
states NotPresent, Pending, Loaded at the end of every cycle. -/
theorem registries_disjoint_after_cycle (cfg : TerrainConfig) (s : ChunkState)
    (ballPos : Option Vec3Q) (completed : List ChunkCoord)
    (h : s.loaded ∩ s.inProgress = ∅) :
    (updateTerrainChunks cfg s ballPos).1.loaded ∩
        (updateTerrainChunks cfg s ballPos).1.inProgress = ∅ ∧
    (controlCycle cfg s ballPos completed).loaded ∩
        (controlCycle cfg s ballPos completed).inProgress = ∅ := by
  rw [← Finset.disjoint_iff_inter_eq_empty] at h
  have hupd : Disjoint (updateTerrainChunks cfg s ballPos).1.loaded
      (updateTerrainChunks cfg s ballPos).1.inProgress := by
    unfold updateTerrainChunks
    exact Finset.disjoint_of_subset_left (Finset.filter_subset _ _)
      (submitLoop_disjoint _ _ _ _ _ h)
  refine ⟨Finset.disjoint_iff_inter_eq_empty.mp hupd, ?_⟩
  exact Finset.disjoint_iff_inter_eq_empty.mp (finalize_disjoint completed _ hupd)

/-- Witness for C3: a concrete cycle from disjoint registries, with the
end state evaluated. -/
theorem registries_disjoint_after_cycle_witness :
    ({((0 : ℤ), (0 : ℤ))} : Finset ChunkCoord) ∩ {((3 : ℤ), (4 : ℤ))} = ∅ ∧
    ((updateTerrainChunks TerrainConfig.default
        ⟨{((0 : ℤ), (0 : ℤ))}, {((3 : ℤ), (4 : ℤ))}⟩ (some ⟨0, 0, 0⟩)).1.loaded ∩
      (updateTerrainChunks TerrainConfig.default
        ⟨{((0 : ℤ), (0 : ℤ))}, {((3 : ℤ), (4 : ℤ))}⟩ (some ⟨0, 0, 0⟩)).1.inProgress = ∅ ∧
    (controlCycle TerrainConfig.default
        ⟨{((0 : ℤ), (0 : ℤ))}, {((3 : ℤ), (4 : ℤ))}⟩ (some ⟨0, 0, 0⟩)
        [((3 : ℤ), (4 : ℤ))]).loaded ∩
      (controlCycle TerrainConfig.default
        ⟨{((0 : ℤ), (0 : ℤ))}, {((3 : ℤ), (4 : ℤ))}⟩ (some ⟨0, 0, 0⟩)
        [((3 : ℤ), (4 : ℤ))]).inProgress = ∅) :=
  ⟨by decide,
    registries_disjoint_after_cycle TerrainConfig.default
      ⟨{((0 : ℤ), (0 : ℤ))}, {((3 : ℤ), (4 : ℤ))}⟩ (some ⟨0, 0, 0⟩)
      [((3 : ℤ), (4 : ℤ))] (by decide)⟩

/-! ## C5: eviction and the view-radius bound -/

/-- C5 (amended).  After the eviction pass of `update_terrain_chunks`,
every coordinate still in `LoadedChunks` lies within Chebyshev distance
`view_radius_chunks` of the observer's current chunk, and any Loaded
coordinate whose Chebyshev distance exceeds the radius is removed by that
pass.  (Coordinates finalized later in the same cycle may lie outside the
radius and are evicted on a later cycle.) -/
theorem eviction_pass_radius_bound (cfg : TerrainConfig) (s : ChunkState)
    (ballPos : Option Vec3Q) :
    (∀ c ∈ (updateTerrainChunks cfg s ballPos).1.loaded,
      |c.1 - (centerChunkOf cfg (observerCenterPos ballPos)).1| ≤ cfg.view_radius_chunks ∧
      |c.2 - (centerChunkOf cfg (observerCenterPos ballPos)).2| ≤ cfg.view_radius_chunks) ∧
    (∀ c ∈ s.loaded,
      (|c.1 - (centerChunkOf cfg (observerCenterPos ballPos)).1| > cfg.view_radius_chunks ∨
        |c.2 - (centerChunkOf cfg (observerCenterPos ballPos)).2| > cfg.view_radius_chunks) →
      c ∉ (updateTerrainChunks cfg s ballPos).1.loaded) := by
  constructor
  · intro c hc
    unfold updateTerrainChunks evictPass at hc
    have := (Finset.mem_filter.mp hc).2
    push_neg at this
    exact ⟨le_of_not_lt fun hlt => absurd this.1 (by omega),
      le_of_not_lt fun hlt => absurd this.2 (by omega)⟩
  · intro c _ hfar hc
    unfold updateTerrainChunks evictPass at hc
    exact (Finset.mem_filter.mp hc).2 hfar

/-- Witness for C5 (amended): with radius 2 and a loaded chunk at (5,0),
the eviction pass removes it and the surviving set obeys the bound. -/
theorem eviction_pass_radius_bound_witness :
    (((5 : ℤ), (0 : ℤ)) ∈
      ({((5 : ℤ), (0 : ℤ)), ((1 : ℤ), (1 : ℤ))} : Finset ChunkCoord)) ∧
    (((5 : ℤ), (0 : ℤ)) ∉
      (updateTerrainChunks cfgR2
        ⟨{((5 : ℤ), (0 : ℤ)), ((1 : ℤ), (1 : ℤ))}, ∅⟩ none).1.loaded) := by
  refine ⟨by decide, ?_⟩
  refine (eviction_pass_radius_bound cfgR2
    ⟨{((5 : ℤ), (0 : ℤ)), ((1 : ℤ), (1 : ℤ))}, ∅⟩ none).2 ((5 : ℤ), (0 : ℤ))
    (by decide) ?_
  have hc : centerChunkOf cfgR2 (observerCenterPos none) = (0, 0) := by
    norm_num [centerChunkOf, observerCenterPos, ratFloor_eq_intFloor,
      cfgR2, TerrainConfig.default]
  rw [hc]
  decide

/-- C5 counterexample to the claim as stated: a build for `(10, 0)` that
was Pending completes during a cycle whose observer chunk is `(0, 0)` with
radius 2; `finalize_chunk_tasks` runs after the eviction pass, so at the
end of that control cycle `LoadedChunks` contains a coordinate at
Chebyshev distance 10 > 2. -/
theorem loaded_outside_radius_at_cycle_end :
    (((10 : ℤ), (0 : ℤ)) ∈
      (controlCycle cfgR2
        ⟨∅, {((10 : ℤ), (0 : ℤ))}⟩ none [((10 : ℤ), (0 : ℤ))]).loaded) ∧
    centerChunkOf cfgR2 (observerCenterPos none) = (0, 0) ∧
    |(10 : ℤ) - 0| > cfgR2.view_radius_chunks := by
  have hc : centerChunkOf cfgR2 (observerCenterPos none) = (0, 0) := by
    norm_num [centerChunkOf, observerCenterPos, ratFloor_eq_intFloor,
      cfgR2, TerrainConfig.default]
  refine ⟨?_, hc, by decide⟩
  simp only [controlCycle, updateTerrainChunks, hc]
  decide

/-! ## C8: idempotence of the desired-set computation -/

/-- C8.  If every coordinate of the desired set around the (unmoved)
observer is already Loaded or Pending, running the desired-set computation
again submits zero builds and marks nothing Pending. -/
theorem streaming_idempotent (cfg : TerrainConfig) (s : ChunkState)
    (ballPos : Option Vec3Q)
    (h : ∀ c ∈ desiredCoords (centerChunkOf cfg (observerCenterPos ballPos))
        cfg.view_radius_chunks, c ∈ s.loaded ∨ c ∈ s.inProgress) :
    (updateTerrainChunks cfg s ballPos).2 = [] ∧
    (updateTerrainChunks cfg s ballPos).1.inProgress = s.inProgress := by
  have hsub : submitLoop s.loaded cfg.max_spawn_per_frame
      (sortByKey (chunkSortKey (centerChunkOf cfg (observerCenterPos ballPos)))
        (desiredCoords (centerChunkOf cfg (observerCenterPos ballPos))
          cfg.view_radius_chunks))
      s.inProgress 0 = ([], s.inProgress) :=
    submitLoop_settled _ _ _ _ _ fun c hc => h c ((mem_sortByKey _ c _).mp hc)
  simp only [updateTerrainChunks, hsub]
  exact ⟨trivial, trivial⟩

/-- Witness for C8: radius 0, desired set `{(0,0)}` already loaded — the
second run submits nothing. -/
theorem streaming_idempotent_witness :
    (updateTerrainChunks cfgR0
      ⟨{((0 : ℤ), (0 : ℤ))}, ∅⟩ (some ⟨0, 0, 0⟩)).2 = [] ∧
    (updateTerrainChunks cfgR0
      ⟨{((0 : ℤ), (0 : ℤ))}, ∅⟩ (some ⟨0, 0, 0⟩)).1.inProgress = ∅ := by
  refine streaming_idempotent _ _ _ ?_
  have hc : centerChunkOf cfgR0
      (observerCenterPos (some ⟨0, 0, 0⟩)) = (0, 0) := by
    norm_num [centerChunkOf, observerCenterPos, ratFloor_eq_intFloor,
      cfgR0, TerrainConfig.default]
  rw [hc]
  decide

/-! ## C10: missing observer defaults to the world origin -/

/-- C10.  With no `Ball` entity the Streaming Manager uses `Vec3::ZERO` as
the observer position, so the desired set is computed around chunk
`(0, 0)` and the cycle runs exactly as it would for an observer at the
origin. -/
theorem missing_observer_defaults_to_origin (cfg : TerrainConfig) (s : ChunkState) :
    observerCenterPos none = ⟨0, 0, 0⟩ ∧
    centerChunkOf cfg (observerCenterPos none) = (0, 0) ∧
    updateTerrainChunks cfg s none = updateTerrainChunks cfg s (some ⟨0, 0, 0⟩) := by
  refine ⟨rfl, ?_, rfl⟩
  simp [centerChunkOf, observerCenterPos, ratFloor_eq_intFloor]

/-! ## C7: LOD selection is monotone in distance -/

/-- C7.  Under the configured ordering
`resolution > lod_mid_resolution > lod_far_resolution > 0` and
`lod_far_distance > lod_mid_distance ≥ 0`, a farther distance never
receives a finer resolution. -/
theorem lod_selection_monotonic (cfg : TerrainConfig) (d1 d2 : ℚ)
    (hres1 : cfg.lod_mid_resolution < cfg.resolution)
    (hres2 : cfg.lod_far_resolution < cfg.lod_mid_resolution)
    (hres3 : 0 < cfg.lod_far_resolution)
    (hthr1 : cfg.lod_mid_distance < cfg.lod_far_distance)
    (hthr2 : 0 ≤ cfg.lod_mid_distance)
    (hd : d1 < d2) :
    lodResolution cfg d2 ≤ lodResolution cfg d1 := by
  unfold lodResolution
  split_ifs <;> first | omega | (exfalso; linarith)

/-- Witness for C7: default config, distances 100 < 600, resolutions
48 ≤ 96. -/
theorem lod_selection_monotonic_witness :
    (TerrainConfig.default.lod_mid_resolution < TerrainConfig.default.resolution ∧
      TerrainConfig.default.lod_far_resolution < TerrainConfig.default.lod_mid_resolution ∧
      0 < TerrainConfig.default.lod_far_resolution ∧
      TerrainConfig.default.lod_mid_distance < TerrainConfig.default.lod_far_distance ∧
      (0 : ℚ) ≤ TerrainConfig.default.lod_mid_distance ∧ (100 : ℚ) < 600) ∧
    lodResolution TerrainConfig.default 600 ≤ lodResolution TerrainConfig.default 100 ∧
    lodResolution TerrainConfig.default 600 = 48 ∧
    lodResolution TerrainConfig.default 100 = 96 :=
  ⟨by norm_num [TerrainConfig.default],
    lod_selection_monotonic TerrainConfig.default 100 600
      (by norm_num [TerrainConfig.default]) (by norm_num [TerrainConfig.default])
      (by norm_num [TerrainConfig.default]) (by norm_num [TerrainConfig.default])
      (by norm_num [TerrainConfig.default]) (by norm_num),
    by norm_num [lodResolution, TerrainConfig.default],
    by norm_num [lodResolution, TerrainConfig.default]⟩

/-- The squared-distance form of the selector agrees with the selector on
the distance itself (the embedding's square-root-free encoding is exact
for nonnegative distances). -/
theorem lodResolutionOfSq_sq (cfg : TerrainConfig) (d : ℚ) (hd : 0 ≤ d) :
    lodResolutionOfSq cfg (d ^ 2) = lodResolution cfg d := by
  have key : ∀ t : ℚ, sqrtGT (d ^ 2) t ↔ d > t := by
    intro t
    constructor
    · rintro (h | h)
      · linarith
      · by_contra hle
        push_neg at hle
        exact absurd (pow_le_pow_left₀ hd hle 2) (not_le.mpr h)
    · intro h
      rcases lt_or_le t 0 with ht | ht
      · exact Or.inl ht
      · exact Or.inr (pow_lt_pow_left₀ h ht two_ne_zero)
  unfold lodResolutionOfSq lodResolution
  exact if_congr (key _) rfl (if_congr (key _) rfl rfl)

/-! ## C2: the LOD distance the code feeds the selector drops the z axis -/

/-- C2 (code bug).  `update_terrain_chunks` computes
`chunk_world_center.xy().distance(center_pos.xy())` — the x,y components
of a vector whose terrain plane is x,z — so the z separation is discarded
and the observer's y is compared against 0.  With the default config, an
observer at `(80, 0, 140)` and candidate chunk `(0, 6)` (world center
`(80, 0, 1040)`): the code's distance is 0, so it chooses the near
resolution 96 and creates a collider, while the distance between the
chunk's world center and the observer is exactly 900 > lod_far_distance,
for which the claim requires the far resolution 24 and no collider. -/
theorem lod_distance_drops_z_axis :
    codeLodDistSq TerrainConfig.default (0, 6) ⟨80, 0, 140⟩ = 0 ∧
    submissionDecision TerrainConfig.default (0, 6) ⟨80, 0, 140⟩ =
      (TerrainConfig.default.resolution, true) ∧
    dist3Sq (chunkWorldCenter TerrainConfig.default (0, 6)) ⟨80, 0, 140⟩ = 900 ^ 2 ∧
    TerrainConfig.default.lod_far_distance < 900 ∧
    lodResolution TerrainConfig.default 900 = TerrainConfig.default.lod_far_resolution ∧
    createCollider TerrainConfig.default TerrainConfig.default.lod_far_resolution = false ∧
    TerrainConfig.default.resolution ≠ TerrainConfig.default.lod_far_resolution := by
  refine ⟨?_, ?_, ?_, ?_, ?_, ?_, ?_⟩ <;>
    norm_num [codeLodDistSq, chunkWorldCenter, submissionDecision,
      lodResolutionOfSq, sqrtGT, createCollider, dist3Sq, lodResolution,
      TerrainConfig.default]

/-! ## C4: config-change handling -/

/-- C4 counterexample: after a fundamental config change (amplitude 1 → 2)
the handler clears `LoadedChunks` and swaps in a sampler built from the
new config, but `InProgressChunks` — which the system does not even
receive — keeps its members, so "clears both registries" fails. -/
theorem config_change_keeps_in_progress :
    configFundamentallyChanged cfgAmp2 TerrainConfig.default ∧
    applyTerrainConfigChanges cfgAmp2
        ⟨{((0 : ℤ), (0 : ℤ))}, {((1 : ℤ), (1 : ℤ))}, TerrainConfig.default⟩ =
      ⟨∅, {((1 : ℤ), (1 : ℤ))}, cfgAmp2⟩ ∧
    ({((1 : ℤ), (1 : ℤ))} : Finset ChunkCoord) ≠ ∅ := by
  have hch : configFundamentallyChanged cfgAmp2 TerrainConfig.default :=
    Or.inl (by norm_num [cfgAmp2, TerrainConfig.default])
  refine ⟨hch, ?_, by decide⟩
  unfold applyTerrainConfigChanges
  rw [if_pos hch]

/-- C4 (amended).  When amplitude, view radius, heightmap path, heightmap
world size or max height changed, the handler despawns all loaded chunk
entities (clearing `LoadedChunks`) and rebuilds the sampler from the new
configuration, but leaves `InProgressChunks` unchanged. -/
theorem config_change_clears_loaded_rebuilds_sampler (cfg : TerrainConfig)
    (w : TerrainWorld) (h : configFundamentallyChanged cfg w.samplerCfg) :
    (applyTerrainConfigChanges cfg w).loaded = ∅ ∧
    (applyTerrainConfigChanges cfg w).samplerCfg = cfg ∧
    (applyTerrainConfigChanges cfg w).inProgress = w.inProgress := by
  unfold applyTerrainConfigChanges
  rw [if_pos h]
  exact ⟨rfl, rfl, rfl⟩

/-- Witness for C4 (amended) at the amplitude change 1 → 2. -/
theorem config_change_clears_loaded_rebuilds_sampler_witness :
    configFundamentallyChanged cfgAmp2 TerrainConfig.default ∧
    ((applyTerrainConfigChanges cfgAmp2
        ⟨{((0 : ℤ), (0 : ℤ))}, {((1 : ℤ), (1 : ℤ))}, TerrainConfig.default⟩).loaded = ∅ ∧
      (applyTerrainConfigChanges cfgAmp2
        ⟨{((0 : ℤ), (0 : ℤ))}, {((1 : ℤ), (1 : ℤ))}, TerrainConfig.default⟩).samplerCfg =
        cfgAmp2 ∧
      (applyTerrainConfigChanges cfgAmp2
        ⟨{((0 : ℤ), (0 : ℤ))}, {((1 : ℤ), (1 : ℤ))}, TerrainConfig.default⟩).inProgress =
        {((1 : ℤ), (1 : ℤ))}) :=
  ⟨Or.inl (by norm_num [cfgAmp2, TerrainConfig.default]),
    config_change_clears_loaded_rebuilds_sampler cfgAmp2
      ⟨{((0 : ℤ), (0 : ℤ))}, {((1 : ℤ), (1 : ℤ))}, TerrainConfig.default⟩
      (Or.inl (by norm_num [cfgAmp2, TerrainConfig.default]))⟩

/-! ## C6: the radius-2 streaming scenario -/

/-- C6.  With view radius 2 and a stationary observer at the origin above
chunk `(0, 0)`: the desired set is exactly the 25 coordinates with
`|x| ≤ 2` and `|z| ≤ 2`; with spawn budget 16 and empty registries the
first cycle submits 16 coordinates and the second the remaining 9, the two
batches partition the desired set, and every first-cycle coordinate is at
most as far (in squared chunk-grid distance) as every second-cycle one. -/
theorem streaming_scenario_radius2 :
    (desiredCoords (0, 0) 2).length = 25 ∧
    (desiredCoords (0, 0) 2).toFinset =
      Finset.Icc (-2 : ℤ) 2 ×ˢ Finset.Icc (-2 : ℤ) 2 ∧
    centerChunkOf cfgScenario (observerCenterPos (some ⟨0, 0, 0⟩)) = (0, 0) ∧
    (updateTerrainChunks cfgScenario ⟨∅, ∅⟩ (some ⟨0, 0, 0⟩)).2.length = 16 ∧
    (updateTerrainChunks cfgScenario
        (updateTerrainChunks cfgScenario ⟨∅, ∅⟩ (some ⟨0, 0, 0⟩)).1
        (some ⟨0, 0, 0⟩)).2.length = 9 ∧
    (updateTerrainChunks cfgScenario ⟨∅, ∅⟩ (some ⟨0, 0, 0⟩)).2.toFinset ∪
        (updateTerrainChunks cfgScenario
          (updateTerrainChunks cfgScenario ⟨∅, ∅⟩ (some ⟨0, 0, 0⟩)).1
          (some ⟨0, 0, 0⟩)).2.toFinset = (desiredCoords (0, 0) 2).toFinset ∧
    (updateTerrainChunks cfgScenario ⟨∅, ∅⟩ (some ⟨0, 0, 0⟩)).2.toFinset ∩
        (updateTerrainChunks cfgScenario
          (updateTerrainChunks cfgScenario ⟨∅, ∅⟩ (some ⟨0, 0, 0⟩)).1
          (some ⟨0, 0, 0⟩)).2.toFinset = ∅ ∧
    (∀ a ∈ (updateTerrainChunks cfgScenario ⟨∅, ∅⟩ (some ⟨0, 0, 0⟩)).2,
      ∀ b ∈ (updateTerrainChunks cfgScenario
          (updateTerrainChunks cfgScenario ⟨∅, ∅⟩ (some ⟨0, 0, 0⟩)).1
          (some ⟨0, 0, 0⟩)).2,
        chunkSortKey (0, 0) a ≤ chunkSortKey (0, 0) b) := by
  have hc : centerChunkOf cfgScenario (observerCenterPos (some ⟨0, 0, 0⟩)) = (0, 0) := by
    norm_num [centerChunkOf, observerCenterPos, ratFloor_eq_intFloor,
      cfgScenario, TerrainConfig.default]
  refine ⟨by decide, by decide, hc, ?_, ?_, ?_, ?_, ?_⟩ <;>
  · simp only [updateTerrainChunks, hc]
    decide
